import Mathlib

set_option allowUnsafeReducibility true

attribute [local semireducible] Rat.add Rat.mul Rat.inv Rat.sub Rat.div Rat.neg

/-!
Shallow embedding of the SmartSpend client-side financial store and its CSV
import/export helpers, with theorems checking the natural-language
specification against the code.

The repository ships two variants of the store module:
* the store at src/store/financial-store.ts whose API (loadFromSupabase,
  an importTransactionsFromCSV returning a result object) is the one the
  auth hook and the UI components call; it applies every mutation to the
  in-memory collections first and then issues the Supabase write, swallowing
  gateway errors.  It is embedded below in namespace Store.
* a second copy of src/store/financial-store.ts present in the tree (under
  src/src/store) whose mutations await the Supabase write first and apply
  the change locally only on success.  Its add operations are embedded in
  namespace StoreTS.

Modelling conventions:
* strings are `List Char` (so every operation reduces inside the kernel);
* JS numbers are `ℚ`;
* a JS `Date` is represented by its ISO calendar-date string, so that
  `new Date(s).toISOString().split('T')[0] = s` holds definitionally for the
  calendar-date strings this code passes around;
* `Date.now().toString()` identifier generation and the current date are
  external inputs, passed as explicit parameters;
* the authenticated user and the outcome of each Supabase call are passed as
  explicit parameters (`user : Option Str`, `netOk : Bool`);
* each store operation also returns the list of observable events it
  performs, in program order: `Ev.apply s` for a zustand `set` that leaves
  the store in state `s`, `Ev.net k s` for a Supabase write of kind `k`
  issued while the store state is `s`, and `Ev.log` for a `console.error`.
-/

abbrev Str := List Char

/-- Coerce a Lean string literal to the character-list representation. -/
def str (s : String) : Str := s.toList

/-- The whitespace test used by `trim` (space, tab, newline, carriage return). -/
def isWs (c : Char) : Bool := c = ' ' || c = '\t' || c = '\n' || c = '\r'

/-- JS `String.prototype.trim`: drop whitespace from both ends. -/
def trim (s : Str) : Str :=
  ((s.dropWhile isWs).reverse.dropWhile isWs).reverse

/-- JS `String.prototype.toLowerCase` (ASCII, which is all this app uses). -/
def toLowerStr (s : Str) : Str := s.map Char.toLower

/-- JS `.replace(/"/g, '')`: remove every double-quote character. -/
def removeQuotes (s : Str) : Str := s.filter (fun c => decide (c ≠ '"'))

/-- JS `String.prototype.split(sep)` for a one-character separator. -/
def splitOnChar (c : Char) : Str → List Str
  | [] => [[]]
  | x :: xs =>
    if x = c then [] :: splitOnChar c xs
    else
      match splitOnChar c xs with
      | [] => [[x]]
      | g :: gs => (x :: g) :: gs

/-- Does `pre` start the list `s`?  (Helper for the substring test.) -/
def leadsWith : Str → Str → Bool
  | [], _ => true
  | _ :: _, [] => false
  | a :: as, b :: bs => a = b && leadsWith as bs

/-- JS `String.prototype.includes`: substring containment. -/
def containsStr : Str → Str → Bool
  | h, needle =>
    match h with
    | [] => needle.isEmpty
    | _ :: t => leadsWith needle h || containsStr t needle

/-- JS falsy-string defaulting: `value || deflt`. -/
def orDefault (v deflt : Str) : Str := if v = [] then deflt else v

/-- Numeric value of a run of decimal digits. -/
def digitsVal (ds : Str) : ℕ :=
  ds.foldl (fun n c => n * 10 + (c.toNat - '0'.toNat)) 0

/-- JS `parseFloat`, for the plain decimal literals this application produces:
skip leading whitespace, optional sign, digits, optional fraction; any
trailing garbage is ignored; `none` models `NaN`.  (Exponent notation is not
produced by this code and is not modelled.) -/
def parseFloat (s : Str) : Option ℚ :=
  let s1 := s.dropWhile isWs
  let signAndRest : ℚ × Str :=
    match s1 with
    | '-' :: r => (-1, r)
    | '+' :: r => (1, r)
    | _ => (1, s1)
  let intDs := signAndRest.2.takeWhile Char.isDigit
  let rest := signAndRest.2.dropWhile Char.isDigit
  let fracDs :=
    match rest with
    | '.' :: r => r.takeWhile Char.isDigit
    | _ => []
  if intDs = [] ∧ fracDs = [] then none
  else
    some (signAndRest.1 *
      ((digitsVal intDs : ℚ) + (digitsVal fracDs : ℚ) / (10 : ℚ) ^ fracDs.length))

/-- Decimal digits of a natural number (with fuel for structural recursion). -/
def natToStrAux : ℕ → ℕ → Str
  | 0, _ => []
  | _, 0 => []
  | fuel + 1, n => natToStrAux fuel (n / 10) ++ [Char.ofNat ('0'.toNat + n % 10)]

/-- JS number-to-string for a natural number. -/
def natToStr (n : ℕ) : Str := if n = 0 then ['0'] else natToStrAux (n + 1) n

/-- Smallest power of ten the denominator divides (searched up to 10^64),
so that the rational can be printed as a finite decimal. -/
def pow10exp (d : ℕ) : Option ℕ := (List.range 64).find? (fun k => decide (d ∣ 10 ^ k))

/-- Left-pad a digit string with zeros to length `k`. -/
def padZeros (s : Str) (k : ℕ) : Str := List.replicate (k - s.length) '0' ++ s

/-- JS template-literal rendering of a number (`${t.amount}`), for rationals
with a finite decimal expansion; other rationals (which a JS float cannot be)
render as a placeholder. -/
def numToStr (q : ℚ) : Str :=
  match pow10exp q.den with
  | none => ['?']
  | some k =>
    let scaled := q.num.natAbs * (10 ^ k / q.den)
    let body :=
      if k = 0 then natToStr scaled
      else natToStr (scaled / 10 ^ k) ++ '.' :: padZeros (natToStr (scaled % 10 ^ k)) k
    if q < 0 then '-' :: body else body

/-! ## Data model (src/store/financial-store.ts interfaces) -/

structure Transaction where
  id : Str
  description : Str
  amount : ℚ
  category : Str
  date : Str
  type : Str
deriving DecidableEq

/-- `Omit<Transaction, 'id'>`: the argument of `addTransaction`. -/
structure TxInput where
  description : Str
  amount : ℚ
  category : Str
  date : Str
  type : Str
deriving DecidableEq

structure BudgetItem where
  id : Str
  category : Str
  budgeted : ℚ
  spent : ℚ
  month : Str
deriving DecidableEq

/-- `Omit<BudgetItem, 'id'>`: the argument of `addBudget`. -/
structure BudgetInput where
  category : Str
  budgeted : ℚ
  spent : ℚ
  month : Str
deriving DecidableEq

structure SavingsGoal where
  id : Str
  name : Str
  targetAmount : ℚ
  currentAmount : ℚ
  deadline : Str
  description : Str
deriving DecidableEq

/-- `Omit<SavingsGoal, 'id'>`: the argument of `addGoal`. -/
structure GoalInput where
  name : Str
  targetAmount : ℚ
  currentAmount : ℚ
  deadline : Str
  description : Str
deriving DecidableEq

/-- `Partial<Transaction>` as passed to `updateTransaction`. -/
structure TxPatch where
  description : Option Str := none
  amount : Option ℚ := none
  category : Option Str := none
  date : Option Str := none
  type : Option Str := none
deriving DecidableEq

/-- `Partial<BudgetItem>` as passed to `updateBudget`. -/
structure BudgetPatch where
  category : Option Str := none
  budgeted : Option ℚ := none
  spent : Option ℚ := none
  month : Option Str := none
deriving DecidableEq

/-- `Partial<SavingsGoal>` as passed to `updateGoal`. -/
structure GoalPatch where
  name : Option Str := none
  targetAmount : Option ℚ := none
  currentAmount : Option ℚ := none
  deadline : Option Str := none
  description : Option Str := none
deriving DecidableEq

/-- JS object spread `{ ...t, ...updates }` for a transaction patch. -/
def applyTxPatch (p : TxPatch) (t : Transaction) : Transaction :=
  { t with
    description := p.description.getD t.description
    amount := p.amount.getD t.amount
    category := p.category.getD t.category
    date := p.date.getD t.date
    type := p.type.getD t.type }

/-- JS object spread `{ ...b, ...updates }` for a budget patch. -/
def applyBudgetPatch (p : BudgetPatch) (b : BudgetItem) : BudgetItem :=
  { b with
    category := p.category.getD b.category
    budgeted := p.budgeted.getD b.budgeted
    spent := p.spent.getD b.spent
    month := p.month.getD b.month }

/-- JS object spread `{ ...g, ...updates }` for a goal patch. -/
def applyGoalPatch (p : GoalPatch) (g : SavingsGoal) : SavingsGoal :=
  { g with
    name := p.name.getD g.name
    targetAmount := p.targetAmount.getD g.targetAmount
    currentAmount := p.currentAmount.getD g.currentAmount
    deadline := p.deadline.getD g.deadline
    description := p.description.getD g.description }

/-- The persisted zustand state: the three collections plus `monthlyBudget`. -/
structure State where
  transactions : List Transaction
  budgets : List BudgetItem
  goals : List SavingsGoal
  monthlyBudget : ℚ
deriving DecidableEq

def State.empty : State := ⟨[], [], [], 0⟩

/-- The kind of a Supabase write. -/
inductive NetKind
  | insert
  | update
  | delete
deriving DecidableEq

/-- Observable events of one store operation, in program order. -/
inductive Ev
  /-- a zustand `set` completed, leaving the store in the given state -/
  | apply (s : State)
  /-- a Supabase write of the given kind was issued while the store state was `s` -/
  | net (k : NetKind) (s : State)
  /-- a `console.error` -/
  | log
deriving DecidableEq

/-- `{ ...transaction, id: Date.now().toString() }` -/
def mkTransaction (id : Str) (i : TxInput) : Transaction :=
  ⟨id, i.description, i.amount, i.category, i.date, i.type⟩

/-- `{ ...budget, id: Date.now().toString() }` -/
def mkBudget (id : Str) (i : BudgetInput) : BudgetItem :=
  ⟨id, i.category, i.budgeted, i.spent, i.month⟩

/-- `{ ...goal, id: Date.now().toString() }` -/
def mkGoal (id : Str) (i : GoalInput) : SavingsGoal :=
  ⟨id, i.name, i.targetAmount, i.currentAmount, i.deadline, i.description⟩

/-! ## The store the application calls (the variant with `loadFromSupabase`,
the one imported by the auth hook and by `importTransactionsFromCSV`).
Every operation applies its change with `set` first and then issues the
Supabase write; a gateway error is only logged. -/

namespace Store

/-- `addTransaction`: append the new transaction locally, then, when a user is
authenticated, insert it into the `transactions` table (errors only logged). -/
def addTransaction (i : TxInput) (newId : Str) (user : Option Str) (netOk : Bool)
    (s : State) : State × List Ev :=
  let s1 := { s with transactions := s.transactions ++ [mkTransaction newId i] }
  match user with
  | some _ => (s1, [Ev.apply s1, Ev.net .insert s1] ++ if netOk then [] else [Ev.log])
  | none => (s1, [Ev.apply s1])

/-- `deleteTransaction`: filter the id out locally, then issue the delete. -/
def deleteTransaction (id : Str) (netOk : Bool) (s : State) : State × List Ev :=
  let s1 := { s with transactions := s.transactions.filter (fun t => decide (t.id ≠ id)) }
  (s1, [Ev.apply s1, Ev.net .delete s1] ++ if netOk then [] else [Ev.log])

/-- `updateTransaction`: merge the patch locally, then issue the update. -/
def updateTransaction (id : Str) (p : TxPatch) (netOk : Bool) (s : State) :
    State × List Ev :=
  let l1 := s.transactions.map (fun t => if t.id = id then applyTxPatch p t else t)
  let s1 := { s with transactions := l1 }
  (s1, [Ev.apply s1, Ev.net .update s1] ++ if netOk then [] else [Ev.log])

/-- `addBudget`: append locally, then insert into `budget_items` when a user
is authenticated. -/
def addBudget (i : BudgetInput) (newId : Str) (user : Option Str) (netOk : Bool)
    (s : State) : State × List Ev :=
  let s1 := { s with budgets := s.budgets ++ [mkBudget newId i] }
  match user with
  | some _ => (s1, [Ev.apply s1, Ev.net .insert s1] ++ if netOk then [] else [Ev.log])
  | none => (s1, [Ev.apply s1])

/-- `updateBudget`: merge the patch locally, then issue the update. -/
def updateBudget (id : Str) (p : BudgetPatch) (netOk : Bool) (s : State) :
    State × List Ev :=
  let l1 := s.budgets.map (fun b => if b.id = id then applyBudgetPatch p b else b)
  let s1 := { s with budgets := l1 }
  (s1, [Ev.apply s1, Ev.net .update s1] ++ if netOk then [] else [Ev.log])

/-- `deleteBudget`: filter the id out locally, then issue the delete. -/
def deleteBudget (id : Str) (netOk : Bool) (s : State) : State × List Ev :=
  let s1 := { s with budgets := s.budgets.filter (fun b => decide (b.id ≠ id)) }
  (s1, [Ev.apply s1, Ev.net .delete s1] ++ if netOk then [] else [Ev.log])

/-- `addGoal`: append locally, then insert into `savings_goals` when a user
is authenticated. -/
def addGoal (i : GoalInput) (newId : Str) (user : Option Str) (netOk : Bool)
    (s : State) : State × List Ev :=
  let s1 := { s with goals := s.goals ++ [mkGoal newId i] }
  match user with
  | some _ => (s1, [Ev.apply s1, Ev.net .insert s1] ++ if netOk then [] else [Ev.log])
  | none => (s1, [Ev.apply s1])

/-- `updateGoal`: merge the patch locally, then issue the update. -/
def updateGoal (id : Str) (p : GoalPatch) (netOk : Bool) (s : State) :
    State × List Ev :=
  let l1 := s.goals.map (fun g => if g.id = id then applyGoalPatch p g else g)
  let s1 := { s with goals := l1 }
  (s1, [Ev.apply s1, Ev.net .update s1] ++ if netOk then [] else [Ev.log])

/-- `deleteGoal`: filter the id out locally, then issue the delete. -/
def deleteGoal (id : Str) (netOk : Bool) (s : State) : State × List Ev :=
  let s1 := { s with goals := s.goals.filter (fun g => decide (g.id ≠ id)) }
  (s1, [Ev.apply s1, Ev.net .delete s1] ++ if netOk then [] else [Ev.log])

end Store

/-! ## The add operations of the second store copy (src/src/store), which
await the Supabase insert and apply the change locally only on success,
prepending the row echoed by the server.  The returned Bool records whether
the operation rethrew the gateway error.  (The server-echoed row carries the
submitted fields back, with the server-assigned id and user_id; the user_id
column is not part of the local record type embedded here.) -/

namespace StoreTS

/-- `addTransaction` of the src/src/store variant: no-op without a user;
otherwise insert first, and only on success prepend the returned row. -/
def addTransaction (i : TxInput) (serverId : Str) (user : Option Str) (netOk : Bool)
    (s : State) : State × List Ev × Bool :=
  match user with
  | none => (s, [], false)
  | some _ =>
    if netOk then
      let s1 := { s with transactions := mkTransaction serverId i :: s.transactions }
      (s1, [Ev.net .insert s, Ev.apply s1], false)
    else (s, [Ev.net .insert s, Ev.log], true)

/-- `addBudget` of the src/src/store variant. -/
def addBudget (i : BudgetInput) (serverId : Str) (user : Option Str) (netOk : Bool)
    (s : State) : State × List Ev × Bool :=
  match user with
  | none => (s, [], false)
  | some _ =>
    if netOk then
      let s1 := { s with budgets := mkBudget serverId i :: s.budgets }
      (s1, [Ev.net .insert s, Ev.apply s1], false)
    else (s, [Ev.net .insert s, Ev.log], true)

/-- `addGoal` of the src/src/store variant. -/
def addGoal (i : GoalInput) (serverId : Str) (user : Option Str) (netOk : Bool)
    (s : State) : State × List Ev × Bool :=
  match user with
  | none => (s, [], false)
  | some _ =>
    if netOk then
      let s1 := { s with goals := mkGoal serverId i :: s.goals }
      (s1, [Ev.net .insert s, Ev.apply s1], false)
    else (s, [Ev.net .insert s, Ev.log], true)

end StoreTS

/-! ## Derived accessors (identical text in both store variants). -/

/-- `getTotalIncome`: sum of the amounts of the income-typed transactions. -/
def getTotalIncome (s : State) : ℚ :=
  (s.transactions.filter (fun t => decide (t.type = str "income"))).foldl
    (fun sum t => sum + t.amount) 0

/-- `getTotalExpenses`: absolute value of the sum of the amounts of the
expense-typed transactions (`Math.abs` around the whole `reduce`). -/
def getTotalExpenses (s : State) : ℚ :=
  |(s.transactions.filter (fun t => decide (t.type = str "expense"))).foldl
    (fun sum t => sum + t.amount) 0|

/-- `getBalance`: `getTotalIncome() - getTotalExpenses()`. -/
def getBalance (s : State) : ℚ := getTotalIncome s - getTotalExpenses s

structure BudgetStatusEntry where
  spent : ℚ
  budgeted : ℚ
  remaining : ℚ
deriving DecidableEq

/-- The record `getBudgetStatus` stores for one budget item. -/
def entryOf (b : BudgetItem) : BudgetStatusEntry :=
  ⟨b.spent, b.budgeted, b.budgeted - b.spent⟩

/-- The `budgets.forEach(b => { status[b.category] = ... })` loop: a JS object
written key by key, modelled as a lookup function built by a left fold. -/
def budgetStatusFold (bs : List BudgetItem) : Str → Option BudgetStatusEntry :=
  bs.foldl
    (fun acc b => fun c => if b.category = c then some (entryOf b) else acc c)
    (fun _ => none)

/-- `getBudgetStatus`, as the category-keyed lookup it returns. -/
def getBudgetStatus (s : State) : Str → Option BudgetStatusEntry :=
  budgetStatusFold s.budgets

/-! ## Tabular importer (`importTransactionsFromCSV` of the store module the
UI calls).  The header-index computations are loop invariants in the source
(recomputed identically for every row); they are factored into named
definitions here so the row rule can be stated about them. -/

/-- One data row split on commas, each value trimmed and quote-stripped. -/
def rowValues (line : Str) : List Str :=
  (splitOnChar ',' line).map (fun v => removeQuotes (trim v))

/-- `headers.findIndex(h => h.includes('description') || h.includes('desc'))` -/
def descIdx (hs : List Str) : Option ℕ :=
  List.findIdx? (fun h => containsStr h (str "description") || containsStr h (str "desc")) hs

/-- `headers.findIndex(h => h.includes('amount') || h.includes('value'))` -/
def amountIdx (hs : List Str) : Option ℕ :=
  List.findIdx? (fun h => containsStr h (str "amount") || containsStr h (str "value")) hs

/-- `headers.findIndex(h => h.includes('category'))` -/
def categoryIdx (hs : List Str) : Option ℕ :=
  List.findIdx? (fun h => containsStr h (str "category")) hs

/-- `headers.findIndex(h => h.includes('date'))` -/
def dateIdx (hs : List Str) : Option ℕ :=
  List.findIdx? (fun h => containsStr h (str "date")) hs

/-- `headers.findIndex(h => h.includes('type'))` -/
def typeIdx (hs : List Str) : Option ℕ :=
  List.findIdx? (fun h => containsStr h (str "type")) hs

/-- `values[idx >= 0 ? idx : fallback] || deflt` (an out-of-range read is
`undefined`, which like the empty string is falsy). -/
def fieldAt (values : List Str) (idx : Option ℕ) (fallback : ℕ) (deflt : Str) : Str :=
  orDefault (values.getD (idx.getD fallback) []) deflt

/-- The string handed to `parseFloat` for a row's amount. -/
def resolvedAmountStr (hs : List Str) (line : Str) : Str :=
  fieldAt (rowValues line) (amountIdx hs) 1 (str "0")

/-- The lower-cased type tag of a row. -/
def resolvedType (hs : List Str) (line : Str) : Str :=
  toLowerStr (fieldAt (rowValues line) (typeIdx hs) 4 (str "expense"))

/-- The body of the importer's per-row conditional: the transaction created
from one non-empty data row, or `none` when the amount is `NaN` or zero.
`today` stands for `new Date()` in the date default. -/
def rowTransaction (today : Str) (hs : List Str) (line : Str) : Option TxInput :=
  match parseFloat (resolvedAmountStr hs line) with
  | none => none
  | some amount =>
    if amount = 0 then none
    else
      some
        { description := fieldAt (rowValues line) (descIdx hs) 0 (str "Imported Transaction")
          amount := if resolvedType hs line = str "expense" then -|amount| else |amount|
          category := fieldAt (rowValues line) (categoryIdx hs) 2 (str "General")
          date := fieldAt (rowValues line) (dateIdx hs) 3 today
          type := resolvedType hs line }

/-- The importer's `for` loop over the data lines: blank lines are skipped,
valid rows are handed to `addTransaction` (which appends them locally; its
state result does not depend on the gateway outcome) and counted.
`ids n` is the value `Date.now().toString()` returned at the n-th add. -/
def processLines (today : Str) (ids : ℕ → Str) (user : Option Str) (hs : List Str) :
    List Str → State → ℕ → State × ℕ
  | [], s, n => (s, n)
  | l :: rest, s, n =>
    let line := trim l
    if line = [] then processLines today ids user hs rest s n
    else
      match rowTransaction today hs line with
      | some i =>
        processLines today ids user hs rest (Store.addTransaction i (ids n) user true s).1 (n + 1)
      | none => processLines today ids user hs rest s n

structure ImportResult where
  success : Bool
  message : Str
deriving DecidableEq

/-- The header row, trimmed, lower-cased and quote-stripped, split on commas. -/
def csvHeaders (lines : List Str) : List Str :=
  (splitOnChar ',' (lines.getD 0 [])).map (fun h => removeQuotes (toLowerStr (trim h)))

/-- `importTransactionsFromCSV`.  The source wraps the body in a `try` whose
handler converts exceptions to a failure result; the embedded body is total,
so no exception path arises. -/
def importTransactionsFromCSV (today : Str) (ids : ℕ → Str) (user : Option Str)
    (csvData : Str) (s : State) : State × ImportResult :=
  let lines := splitOnChar '\n' csvData
  if lines.length < 2 then
    (s, ⟨false, str "CSV file is empty or has no data rows"⟩)
  else
    let r := processLines today ids user (csvHeaders lines) (lines.drop 1) s 0
    (r.1, ⟨true, str "Successfully imported " ++ natToStr r.2 ++ str " transactions"⟩)

/-! ## CSV export (`handleExport('transactions')` of the header component):
a fixed header row, then one row per transaction with the free-text fields
double-quoted and the date rendered as its calendar-date string. -/

/-- The characters of one exported row between its outer double quotes. -/
def exportRowMid (t : Transaction) : Str :=
  t.description ++ ['"', ','] ++ numToStr t.amount ++ [',', '"'] ++ t.category ++
    ['"', ',', '"'] ++ t.date ++ ['"', ',', '"'] ++ t.type

/-- One exported row, without its terminating newline:
`"desc",amount,"category","date","type"`. -/
def exportRowBody (t : Transaction) : Str := ('"' :: exportRowMid t) ++ ['"']

/-- One exported row (`csvContent += \`...\n\``). -/
def exportRow (t : Transaction) : Str := exportRowBody t ++ str "\n"

/-- The full exported text for the transactions collection. -/
def exportTransactionsCSV (ts : List Transaction) : Str :=
  ts.foldl (fun acc t => acc ++ exportRow t) (str "description,amount,category,date,type\n")

/-! ## Definitions taken from the specification's words (not from the code),
used to compare the code against the spec where the two may differ. -/

/-- Modelled from the spec: "the sum over transactions of type 'expense' of
the absolute value of each individual transaction's amount" (per-transaction
`abs`, unlike the code's `abs` of the sum). -/
def specTotalExpenses (s : State) : ℚ :=
  ((s.transactions.filter (fun t => decide (t.type = str "expense"))).map
    (fun t => |t.amount|)).sum

/-! ## Concrete sample data for closed statements. -/

def sampleTxInput : TxInput :=
  ⟨str "Coffee", -5, str "Food", str "2024-01-05", str "expense"⟩

def sampleBudgetInput : BudgetInput := ⟨str "Food", 100, 40, str "2024-01"⟩

def sampleGoalInput : GoalInput :=
  ⟨str "Car", 1000, 50, str "2025-01-01", str "a car"⟩

def oldTx : Transaction :=
  ⟨str "1", str "Old", 3, str "Misc", str "2024-01-01", str "income"⟩

def oneTxState : State := ⟨[oldTx], [], [], 0⟩

def today0 : Str := str "2026-10-11"

def ids0 : ℕ → Str := fun n => natToStr n

/-! ## Claims about the store operations -/

/-- C6: for every state, `getTotalIncome() - getTotalExpenses() == getBalance()`
(`getBalance` computes exactly this difference over the same state). -/
theorem balance_eq_income_sub_expenses (s : State) :
    getTotalIncome s - getTotalExpenses s = getBalance s := rfl

/-- C2: for every mutation operation of the store the application calls and
every state, when the Supabase write is rejected (`netOk = false`) the final
in-memory state still carries the locally applied change — it equals the
state produced when the write succeeds, and the change is present in the
collection; nothing is rolled back (the divergence persists until a reload). -/
theorem gateway_failure_no_rollback (ti : TxInput) (bi : BudgetInput) (gi : GoalInput)
    (id newId uid : Str) (tp : TxPatch) (bp : BudgetPatch) (gp : GoalPatch) (s : State) :
    ((Store.addTransaction ti newId (some uid) false s).1
        = (Store.addTransaction ti newId (some uid) true s).1
      ∧ (Store.addTransaction ti newId (some uid) false s).1.transactions
        = s.transactions ++ [mkTransaction newId ti]) ∧
    ((Store.updateTransaction id tp false s).1 = (Store.updateTransaction id tp true s).1
      ∧ (Store.updateTransaction id tp false s).1.transactions
        = s.transactions.map (fun t => if t.id = id then applyTxPatch tp t else t)) ∧
    ((Store.deleteTransaction id false s).1 = (Store.deleteTransaction id true s).1
      ∧ (Store.deleteTransaction id false s).1.transactions
        = s.transactions.filter (fun t => decide (t.id ≠ id))) ∧
    ((Store.addBudget bi newId (some uid) false s).1
        = (Store.addBudget bi newId (some uid) true s).1
      ∧ (Store.addBudget bi newId (some uid) false s).1.budgets
        = s.budgets ++ [mkBudget newId bi]) ∧
    ((Store.updateBudget id bp false s).1 = (Store.updateBudget id bp true s).1
      ∧ (Store.updateBudget id bp false s).1.budgets
        = s.budgets.map (fun b => if b.id = id then applyBudgetPatch bp b else b)) ∧
    ((Store.deleteBudget id false s).1 = (Store.deleteBudget id true s).1
      ∧ (Store.deleteBudget id false s).1.budgets
        = s.budgets.filter (fun b => decide (b.id ≠ id))) ∧
    ((Store.addGoal gi newId (some uid) false s).1 = (Store.addGoal gi newId (some uid) true s).1
      ∧ (Store.addGoal gi newId (some uid) false s).1.goals
        = s.goals ++ [mkGoal newId gi]) ∧
    ((Store.updateGoal id gp false s).1 = (Store.updateGoal id gp true s).1
      ∧ (Store.updateGoal id gp false s).1.goals
        = s.goals.map (fun g => if g.id = id then applyGoalPatch gp g else g)) ∧
    ((Store.deleteGoal id false s).1 = (Store.deleteGoal id true s).1
      ∧ (Store.deleteGoal id false s).1.goals
        = s.goals.filter (fun g => decide (g.id ≠ id))) :=
  ⟨⟨rfl, rfl⟩, ⟨rfl, rfl⟩, ⟨rfl, rfl⟩, ⟨rfl, rfl⟩, ⟨rfl, rfl⟩, ⟨rfl, rfl⟩,
    ⟨rfl, rfl⟩, ⟨rfl, rfl⟩, ⟨rfl, rfl⟩⟩

/-- C3 (counterexample): an unauthenticated `addTransaction` of the store the
application calls is not a local no-op — starting from the empty store it
changes the transactions collection. -/
theorem unauth_add_changes_state :
    (Store.addTransaction sampleTxInput (str "9") none true State.empty).1.transactions
      ≠ State.empty.transactions := by decide

/-- C3 (amended): an add with no authenticated user issues no gateway insert
and surfaces no error, but in the store the application calls it still
applies the new entity to the in-memory collection (the local write happens
unconditionally, before the auth check); only in the src/src/store variant is
it a full local no-op (unchanged state, no events, no throw). -/
theorem unauth_add_local_write_no_network (ti : TxInput) (bi : BudgetInput)
    (gi : GoalInput) (newId serverId : Str) (ok : Bool) (s : State) :
    ((Store.addTransaction ti newId none ok s).1.transactions
        = s.transactions ++ [mkTransaction newId ti]
      ∧ (Store.addTransaction ti newId none ok s).2
        = [Ev.apply (Store.addTransaction ti newId none ok s).1]) ∧
    ((Store.addBudget bi newId none ok s).1.budgets = s.budgets ++ [mkBudget newId bi]
      ∧ (Store.addBudget bi newId none ok s).2
        = [Ev.apply (Store.addBudget bi newId none ok s).1]) ∧
    ((Store.addGoal gi newId none ok s).1.goals = s.goals ++ [mkGoal newId gi]
      ∧ (Store.addGoal gi newId none ok s).2
        = [Ev.apply (Store.addGoal gi newId none ok s).1]) ∧
    StoreTS.addTransaction ti serverId none ok s = (s, [], false) ∧
    StoreTS.addBudget bi serverId none ok s = (s, [], false) ∧
    StoreTS.addGoal gi serverId none ok s = (s, [], false) :=
  ⟨⟨rfl, rfl⟩, ⟨rfl, rfl⟩, ⟨rfl, rfl⟩, rfl, rfl, rfl⟩

/-- C4 (counterexample): in the store the application calls, an authenticated
`addTransaction` onto a one-element collection puts the new transaction at
the END — the first element of the result is still the pre-existing one, not
the newly created entity. -/
theorem add_not_prepended :
    ((Store.addTransaction sampleTxInput (str "9") (some (str "u")) true
        oneTxState).1.transactions
      = [oldTx, mkTransaction (str "9") sampleTxInput]) ∧
    ((Store.addTransaction sampleTxInput (str "9") (some (str "u")) true
        oneTxState).1.transactions).head?
      ≠ some (mkTransaction (str "9") sampleTxInput) := by
  constructor
  · rfl
  · decide

/-- C4 (amended): for every authenticated add in the store the application
calls, the new entity (with the locally generated identifier; the owning-user
stamp goes only into the gateway row, not the local record) becomes the LAST
element of the collection, every pre-existing element preserved unchanged and
in order before it; only the src/src/store variant prepends, and it does so
only after the gateway insert succeeds. -/
theorem add_appends_last (ti : TxInput) (bi : BudgetInput) (gi : GoalInput)
    (newId uid : Str) (ok : Bool) (s : State) :
    (Store.addTransaction ti newId (some uid) ok s).1.transactions
      = s.transactions ++ [mkTransaction newId ti] ∧
    (Store.addBudget bi newId (some uid) ok s).1.budgets
      = s.budgets ++ [mkBudget newId bi] ∧
    (Store.addGoal gi newId (some uid) ok s).1.goals = s.goals ++ [mkGoal newId gi] ∧
    (StoreTS.addTransaction ti newId (some uid) true s).1.transactions
      = mkTransaction newId ti :: s.transactions ∧
    (StoreTS.addBudget bi newId (some uid) true s).1.budgets
      = mkBudget newId bi :: s.budgets ∧
    (StoreTS.addGoal gi newId (some uid) true s).1.goals = mkGoal newId gi :: s.goals :=
  ⟨rfl, rfl, rfl, rfl, rfl, rfl⟩

/-! ## C1: ordering of the local apply and the gateway write -/

/-- An operation run is optimistic when its first observable event is the
`set` that installs the final state, and every Supabase write it issues is
issued while the store already holds that (changed) state. -/
def optimistic (r : State × List Ev) : Prop :=
  r.2.head? = some (Ev.apply r.1) ∧ ∀ k s1, Ev.net k s1 ∈ r.2 → s1 = r.1

/-- The trace shape shared by the authenticated mutations of the store the
application calls is optimistic. -/
theorem optimistic_apply_net (s1 : State) (k : NetKind) (ok : Bool) :
    optimistic (s1, [Ev.apply s1, Ev.net k s1] ++ if ok then [] else [Ev.log]) := by
  constructor
  · rfl
  · intro k1 s2 h
    cases ok <;> simp_all

/-- The trace shape of an unauthenticated add (a bare local apply) is
optimistic. -/
theorem optimistic_apply_only (s1 : State) :
    optimistic (s1, [Ev.apply s1]) := by
  constructor
  · rfl
  · intro k1 s2 h
    simp_all

/-- C1 (amended): in the store the application calls (the variant wired to
the auth hook and the importer), every mutation operation — add, update and
delete, on transactions, budgets and goals — applies its change to the
in-memory collection strictly before any Supabase write: the first event is
the local `set`, and every network write is issued while the store holds the
already-applied state, so a concurrent read sees the optimistic value.  The
src/src/store variant is NOT optimistic: its `addTransaction` issues the
insert against the unchanged pre-state and applies locally only on success
(on failure no local change is ever made). -/
theorem store_mutations_optimistic (ti : TxInput) (bi : BudgetInput) (gi : GoalInput)
    (id newId uid : Str) (tp : TxPatch) (bp : BudgetPatch) (gp : GoalPatch)
    (u : Option Str) (ok : Bool) (s : State) :
    optimistic (Store.addTransaction ti newId u ok s) ∧
    optimistic (Store.updateTransaction id tp ok s) ∧
    optimistic (Store.deleteTransaction id ok s) ∧
    optimistic (Store.addBudget bi newId u ok s) ∧
    optimistic (Store.updateBudget id bp ok s) ∧
    optimistic (Store.deleteBudget id ok s) ∧
    optimistic (Store.addGoal gi newId u ok s) ∧
    optimistic (Store.updateGoal id gp ok s) ∧
    optimistic (Store.deleteGoal id ok s) ∧
    (StoreTS.addTransaction ti newId (some uid) true s).2.1.head?
      = some (Ev.net .insert s) ∧
    (StoreTS.addTransaction ti newId (some uid) false s).1 = s := by
  refine ⟨?_, ?_, ?_, ?_, ?_, ?_, ?_, ?_, ?_, rfl, rfl⟩
  · cases u with
    | some uid1 => exact optimistic_apply_net _ .insert ok
    | none => exact optimistic_apply_only _
  · exact optimistic_apply_net _ .update ok
  · exact optimistic_apply_net _ .delete ok
  · cases u with
    | some uid1 => exact optimistic_apply_net _ .insert ok
    | none => exact optimistic_apply_only _
  · exact optimistic_apply_net _ .update ok
  · exact optimistic_apply_net _ .delete ok
  · cases u with
    | some uid1 => exact optimistic_apply_net _ .insert ok
    | none => exact optimistic_apply_only _
  · exact optimistic_apply_net _ .update ok
  · exact optimistic_apply_net _ .delete ok

/-- C1 (counterexample): the `addTransaction` of the src/src/store variant,
run authenticated on the empty store with a succeeding gateway, issues its
Supabase insert while the in-memory collection is still unchanged (the
network event carries the empty pre-state, and the local apply comes after
it), contradicting the claim that every mutation applies to memory strictly
before the network write. -/
theorem tsStore_add_issues_network_before_apply :
    (StoreTS.addTransaction sampleTxInput (str "7") (some (str "u")) true
        State.empty).2.1
      = [Ev.net .insert State.empty,
         Ev.apply (StoreTS.addTransaction sampleTxInput (str "7") (some (str "u")) true
            State.empty).1] ∧
    State.empty.transactions = [] ∧
    (StoreTS.addTransaction sampleTxInput (str "7") (some (str "u")) true
        State.empty).1.transactions ≠ [] := by
  refine ⟨rfl, rfl, ?_⟩
  decide

/-! ## C5: getTotalExpenses applies abs to the sum, not per transaction -/

/-- The `reduce((sum, t) => sum + t.amount, 0)` fold is the list sum of the
amounts. -/
theorem foldl_add_amount (ts : List Transaction) (a : ℚ) :
    ts.foldl (fun sum t => sum + t.amount) a = a + (ts.map Transaction.amount).sum := by
  induction ts generalizing a with
  | nil => simp
  | cons t ts ih => simp [ih, add_assoc]

/-- A list of non-positive rationals has a non-positive sum. -/
theorem sum_nonpos_of_nonpos (l : List ℚ) (h : ∀ x ∈ l, x ≤ 0) : l.sum ≤ 0 := by
  induction l with
  | nil => simp
  | cons x l ih =>
    have hx : x ≤ 0 := h x (List.mem_cons_self x l)
    have hl : l.sum ≤ 0 := ih fun y hy => h y (List.mem_cons_of_mem x hy)
    simpa using add_nonpos hx hl

/-- Absolute value distributes over a sum of non-positive rationals. -/
theorem abs_sum_of_nonpos (l : List ℚ) (h : ∀ x ∈ l, x ≤ 0) :
    |l.sum| = (l.map (fun x => |x|)).sum := by
  induction l with
  | nil => simp
  | cons x l ih =>
    have hx : x ≤ 0 := h x (List.mem_cons_self x l)
    have hl : ∀ y ∈ l, y ≤ 0 := fun y hy => h y (List.mem_cons_of_mem x hy)
    have hsum : l.sum ≤ 0 := sum_nonpos_of_nonpos l hl
    have habs : |x + l.sum| = |x| + |l.sum| := by
      rw [abs_of_nonpos (add_nonpos hx hsum), abs_of_nonpos hx, abs_of_nonpos hsum,
        neg_add]
    simp only [List.sum_cons, List.map_cons, habs, ih hl]

/-- C5 (counterexample): a state holding two expense transactions with
amounts +5 and -5 yields `getTotalExpenses() = 0`, not the 10 the claim's
per-transaction absolute value would give (the code takes the absolute value
of the sum, so opposite signs cancel). -/
theorem totalExpenses_cancellation :
    getTotalExpenses
        ⟨[⟨str "1", str "a", 5, str "Food", str "2024-01-05", str "expense"⟩,
          ⟨str "2", str "b", -5, str "Food", str "2024-01-06", str "expense"⟩],
         [], [], 0⟩ = 0 ∧
    specTotalExpenses
        ⟨[⟨str "1", str "a", 5, str "Food", str "2024-01-05", str "expense"⟩,
          ⟨str "2", str "b", -5, str "Food", str "2024-01-06", str "expense"⟩],
         [], [], 0⟩ = 10 := by
  constructor <;> decide

/-- C5 (amended): `getTotalExpenses()` is the absolute value of the SUM of the
amounts of the expense-typed transactions; it equals the sum of the
per-transaction absolute values only when the stored expense amounts all share
one sign — in particular whenever they all follow the store's own convention
of non-positive expense amounts. -/
theorem totalExpenses_eq_spec_of_nonpos (s : State)
    (h : ∀ t ∈ s.transactions, t.type = str "expense" → t.amount ≤ 0) :
    getTotalExpenses s = specTotalExpenses s := by
  unfold getTotalExpenses specTotalExpenses
  rw [foldl_add_amount, zero_add, abs_sum_of_nonpos, List.map_map]
  · rfl
  · intro x hx
    rcases List.mem_map.mp hx with ⟨t, ht, rfl⟩
    have hmem := List.mem_filter.mp ht
    exact h t hmem.1 (of_decide_eq_true hmem.2)

/-- Witness for C5 (amended) at a concrete state whose expense amounts are
all non-positive. -/
theorem totalExpenses_eq_spec_witness :
    getTotalExpenses
        ⟨[⟨str "1", str "a", -5, str "Food", str "2024-01-05", str "expense"⟩,
          ⟨str "2", str "b", 7, str "Work", str "2024-01-06", str "income"⟩],
         [], [], 0⟩
      = specTotalExpenses
        ⟨[⟨str "1", str "a", -5, str "Food", str "2024-01-05", str "expense"⟩,
          ⟨str "2", str "b", 7, str "Work", str "2024-01-06", str "income"⟩],
         [], [], 0⟩ :=
  totalExpenses_eq_spec_of_nonpos _ (by decide)

/-! ## C10: getBudgetStatus keys by category alone; the latest item wins -/

/-- Unfolding the `forEach` write loop against a general accumulator: the
looked-up entry comes from the latest matching item, else from the
accumulator. -/
theorem budgetStatusFold_acc (bs : List BudgetItem)
    (g : Str → Option BudgetStatusEntry) (c : Str) :
    (bs.foldl
        (fun acc b => fun x => if b.category = x then some (entryOf b) else acc x) g) c
      = ((bs.reverse.find? (fun b => decide (b.category = c))).map
          (fun b => some (entryOf b))).getD (g c) := by
  induction bs generalizing g with
  | nil => simp
  | cons b bs ih =>
    rw [List.foldl_cons, ih, List.reverse_cons, List.find?_append]
    cases hfind : bs.reverse.find? (fun b1 => decide (b1.category = c)) with
    | some b1 => simp
    | none =>
      by_cases hc : b.category = c
      · simp [List.find?_cons, hc]
      · simp [List.find?_cons, hc]

/-- C10: `getBudgetStatus` keys its result by category alone: looking up a
category returns `{spent, budgeted, remaining = budgeted - spent}` taken from
the budget item with that category occurring LATEST in the budgets array
(`none` when the category is absent), and the result is unchanged under any
rewriting of every item's month field — the month is never consulted. -/
theorem budgetStatus_last_category_wins (s : State) (c : Str)
    (f : BudgetItem → Str) :
    getBudgetStatus s c
      = (s.budgets.reverse.find? (fun b => decide (b.category = c))).map entryOf ∧
    budgetStatusFold (s.budgets.map (fun b => { b with month := f b })) c
      = budgetStatusFold s.budgets c := by
  constructor
  · rw [getBudgetStatus, budgetStatusFold, budgetStatusFold_acc]
    cases s.budgets.reverse.find? (fun b => decide (b.category = c)) <;> rfl
  · rw [budgetStatusFold, budgetStatusFold, budgetStatusFold_acc, budgetStatusFold_acc,
      ← List.map_reverse, List.find?_map]
    have hpred : ((fun b => decide (b.category = c)) ∘
        (fun b : BudgetItem => { b with month := f b }))
        = (fun b : BudgetItem => decide (b.category = c)) := rfl
    rw [hpred]
    cases s.budgets.reverse.find? (fun b => decide (b.category = c)) <;> rfl

/-! ## C7: inputs with no data rows -/

/-- Data lines that are all blank after trimming leave the loop state and
count untouched. -/
theorem processLines_of_blank (today : Str) (ids : ℕ → Str) (user : Option Str)
    (hs : List Str) (ls : List Str) (s : State) (n : ℕ)
    (h : ∀ l ∈ ls, trim l = []) :
    processLines today ids user hs ls s n = (s, n) := by
  induction ls with
  | nil => rfl
  | cons l rest ih =>
    have hl : trim l = [] := h l (List.mem_cons_self l rest)
    rw [processLines, hl]
    simp only [if_pos rfl]
    exact ih fun x hx => h x (List.mem_cons_of_mem l hx)

/-- C7 (amended): an input that splits into fewer than two newline-separated
lines makes `importTransactionsFromCSV` fail with the descriptive message and
leave the store untouched; but an input with two or more lines whose data
lines are all blank — in particular a lone header row terminated by a
trailing newline — SUCCEEDS, reporting zero imported transactions (and still
creates none). -/
theorem import_no_data_rows (today : Str) (ids : ℕ → Str) (user : Option Str)
    (csv : Str) (s : State) :
    ((splitOnChar '\n' csv).length < 2 →
      importTransactionsFromCSV today ids user csv s
        = (s, ⟨false, str "CSV file is empty or has no data rows"⟩)) ∧
    (2 ≤ (splitOnChar '\n' csv).length →
      (∀ l ∈ (splitOnChar '\n' csv).drop 1, trim l = []) →
      importTransactionsFromCSV today ids user csv s
        = (s, ⟨true, str "Successfully imported 0 transactions"⟩)) := by
  constructor
  · intro h
    rw [importTransactionsFromCSV, if_pos h]
  · intro hlen hblank
    rw [importTransactionsFromCSV, if_neg (by omega),
      processLines_of_blank today ids user _ _ s 0 hblank]
    have hmsg : str "Successfully imported " ++ natToStr 0 ++ str " transactions"
        = str "Successfully imported 0 transactions" := by decide
    dsimp only
    rw [hmsg]

/-- Witness for C7 (amended): the empty input fails with zero creations, and
the header-with-trailing-newline input succeeds reporting zero. -/
theorem import_no_data_rows_witness :
    importTransactionsFromCSV today0 ids0 none (str "") State.empty
      = (State.empty, ⟨false, str "CSV file is empty or has no data rows"⟩) ∧
    importTransactionsFromCSV today0 ids0 none (str "header\n") State.empty
      = (State.empty, ⟨true, str "Successfully imported 0 transactions"⟩) :=
  ⟨(import_no_data_rows today0 ids0 none (str "") State.empty).1 (by decide),
   (import_no_data_rows today0 ids0 none (str "header\n") State.empty).2
      (by decide) (by decide)⟩

/-- C7 (counterexample): the header-only input terminated by a trailing
newline — an input with no data rows — does NOT return `{success: false}`:
the importer reports success (zero imported), because the trailing newline
makes the split yield two lines. -/
theorem import_header_trailing_newline_succeeds :
    (importTransactionsFromCSV today0 ids0 none
        (str "description,amount,category,date,type\n") State.empty).2.success = true ∧
    (importTransactionsFromCSV today0 ids0 none
        (str "description,amount,category,date,type\n") State.empty).1 = State.empty := by
  constructor <;> decide

/-! ## C8: the row-level validity and sign-normalization rule -/

/-- The transactions the import loop creates: blank lines skipped, each other
line contributing its `rowTransaction` when the amount is a parsed nonzero
number. -/
def goodRows (today : Str) (hs : List Str) (ls : List Str) : List TxInput :=
  ls.filterMap (fun l => if trim l = [] then none else rowTransaction today hs (trim l))

/-- The transactions `addTransaction` builds from the created row inputs,
with the identifiers handed out from position `n` on. -/
def importedTxs (ids : ℕ → Str) : ℕ → List TxInput → List Transaction
  | _, [] => []
  | n, i :: rest => mkTransaction (ids n) i :: importedTxs ids (n + 1) rest

/-- The state `addTransaction` leaves does not depend on the user or the
gateway outcome: the new transaction is appended. -/
theorem addTransaction_fst (i : TxInput) (newId : Str) (u : Option Str) (ok : Bool)
    (s : State) :
    (Store.addTransaction i newId u ok s).1
      = { s with transactions := s.transactions ++ [mkTransaction newId i] } := by
  cases u <;> rfl

theorem importedTxs_length (ids : ℕ → Str) (l : List TxInput) :
    ∀ n, (importedTxs ids n l).length = l.length := by
  induction l with
  | nil => intro n; rfl
  | cons i rest ih => intro n; simp [importedTxs, ih]

/-- The import loop appends exactly the created transactions, in row order,
and counts them. -/
theorem processLines_characterization (today : Str) (ids : ℕ → Str)
    (user : Option Str) (hs : List Str) (ls : List Str) :
    ∀ (s : State) (n : ℕ),
      processLines today ids user hs ls s n
        = ({ s with transactions := s.transactions ++ importedTxs ids n (goodRows today hs ls) },
           n + (goodRows today hs ls).length) := by
  induction ls with
  | nil => intro s n; simp [processLines, goodRows, importedTxs]
  | cons l rest ih =>
    intro s n
    rw [processLines]
    by_cases hl : trim l = []
    · rw [hl]
      simp only [if_pos rfl]
      rw [ih]
      simp [goodRows, hl]
    · rw [if_neg hl]
      cases hrow : rowTransaction today hs (trim l) with
      | none =>
        rw [ih]
        simp [goodRows, hl, hrow]
      | some i =>
        dsimp only
        rw [addTransaction_fst, ih]
        have hgood : goodRows today hs (l :: rest)
            = i :: goodRows today hs rest := by
          simp [goodRows, hl, hrow]
        rw [hgood]
        simp [importedTxs, List.append_assoc]
        omega

/-- C8: per-row rule of the importer.  (1) A non-empty data row yields a
transaction iff its resolved amount field parses and is nonzero; (2) the
created transaction's stored amount is the negated absolute value of the
parsed amount when the row's resolved type is 'expense' and the absolute
value otherwise, overriding the source sign, and its type tag is the resolved
(lower-cased, defaulted) one; (3) the whole import appends exactly the
created rows in order — rows failing the rule are skipped without aborting
the rest — and the result message reports only the final count. -/
theorem import_row_rule (today : Str) (hs : List Str) (line : Str)
    (ids : ℕ → Str) (user : Option Str) (csv : Str) (s : State) :
    ((rowTransaction today hs line).isSome ↔
      ∃ a, parseFloat (resolvedAmountStr hs line) = some a ∧ a ≠ 0) ∧
    (∀ t : TxInput, rowTransaction today hs line = some t →
      ∃ a, parseFloat (resolvedAmountStr hs line) = some a ∧
        t.type = resolvedType hs line ∧
        t.amount = if resolvedType hs line = str "expense" then -|a| else |a|) ∧
    (2 ≤ (splitOnChar '\n' csv).length →
      importTransactionsFromCSV today ids user csv s
        = ({ s with transactions := s.transactions ++
              importedTxs ids 0 (goodRows today (csvHeaders (splitOnChar '\n' csv))
                ((splitOnChar '\n' csv).drop 1)) },
           ⟨true, str "Successfully imported "
              ++ natToStr (goodRows today (csvHeaders (splitOnChar '\n' csv))
                  ((splitOnChar '\n' csv).drop 1)).length
              ++ str " transactions"⟩)) := by
  refine ⟨?_, ?_, ?_⟩
  · cases hp : parseFloat (resolvedAmountStr hs line) with
    | none => simp [rowTransaction, hp]
    | some a =>
      by_cases ha : a = 0
      · subst ha
        simp [rowTransaction, hp]
      · simp only [rowTransaction, hp, if_neg ha, Option.isSome_some, true_iff]
        exact ⟨a, rfl, ha⟩
  · intro t ht
    cases hp : parseFloat (resolvedAmountStr hs line) with
    | none => rw [rowTransaction, hp] at ht; cases ht
    | some a =>
      rw [rowTransaction, hp] at ht
      dsimp only at ht
      by_cases ha : a = 0
      · rw [if_pos ha] at ht; cases ht
      · rw [if_neg ha] at ht
        obtain rfl := Option.some_injective _ ht.symm
        exact ⟨a, rfl, rfl, rfl⟩
  · intro hlen
    rw [importTransactionsFromCSV, if_neg (by omega), processLines_characterization]
    dsimp only
    rw [Nat.zero_add]

/-! Concrete inputs exercising the row rule: one valid expense row with a
positive source amount (stored negated), and a CSV whose second data row has
an unparseable amount and is skipped. -/

def stdHeaders : List Str :=
  [str "description", str "amount", str "category", str "date", str "type"]

def row0 : Str := str "Coffee,5,Food,2024-01-05,expense"

def txRow0 : TxInput := ⟨str "Coffee", -5, str "Food", str "2024-01-05", str "expense"⟩

def csv0 : Str :=
  str "description,amount,category,date,type\nCoffee,5,Food,2024-01-05,expense\nSalary,notanumber,Work,2024-01-01,income"

/-- Witness for C8 at a concrete row and a concrete CSV. -/
theorem import_row_rule_witness :
    (∃ a, parseFloat (resolvedAmountStr stdHeaders row0) = some a ∧
      txRow0.type = resolvedType stdHeaders row0 ∧
      txRow0.amount
        = if resolvedType stdHeaders row0 = str "expense" then -|a| else |a|) ∧
    importTransactionsFromCSV today0 ids0 none csv0 State.empty
      = (⟨[mkTransaction (ids0 0) txRow0], [], [], 0⟩,
         ⟨true, str "Successfully imported 1 transactions"⟩) :=
  ⟨(import_row_rule today0 stdHeaders row0 ids0 none csv0 State.empty).2.1 txRow0
      (by decide),
   ((import_row_rule today0 stdHeaders row0 ids0 none csv0 State.empty).2.2
      (by decide)).trans (by decide)⟩

/-! ## C9: export followed by re-import -/

/-- A split at a separator that does not occur in the list leaves it whole. -/
theorem splitOnChar_not_mem (c : Char) (xs : Str) (h : c ∉ xs) :
    splitOnChar c xs = [xs] := by
  induction xs with
  | nil => rfl
  | cons x t ih =>
    have hx : ¬x = c := fun he => h (he ▸ List.mem_cons_self x t)
    rw [splitOnChar, if_neg hx, ih fun hm => h (List.mem_cons_of_mem x hm)]

/-- Splitting a concatenation whose first part is separator-free peels off
that first part. -/
theorem splitOnChar_append (c : Char) (xs ys : Str) (h : c ∉ xs) :
    splitOnChar c (xs ++ c :: ys) = xs :: splitOnChar c ys := by
  induction xs with
  | nil => simp [splitOnChar]
  | cons x t ih =>
    have hx : ¬x = c := fun he => h (he ▸ List.mem_cons_self x t)
    rw [List.cons_append, splitOnChar, if_neg hx,
      ih fun hm => h (List.mem_cons_of_mem x hm)]

/-- `dropWhile` does nothing when the first element fails the test. -/
theorem dropWhile_of_head_false (p : Char → Bool) (a : Char) (l : Str)
    (h : p a = false) : List.dropWhile p (a :: l) = a :: l := by
  simp [List.dropWhile_cons, h]

/-- A double-quoted value is already trimmed: its first and last characters
are quotes, not whitespace. -/
theorem trim_quoted (xs : Str) :
    trim (('"' :: xs) ++ ['"']) = ('"' :: xs) ++ ['"'] := by
  have hq : isWs '"' = false := rfl
  rw [trim, List.cons_append, dropWhile_of_head_false _ _ _ hq,
    ← List.cons_append, List.reverse_append, List.reverse_singleton,
    List.singleton_append, dropWhile_of_head_false _ _ _ hq]
  simp

/-- Quote-stripping a double-quoted quote-free value recovers the value. -/
theorem removeQuotes_quoted (xs : Str) (h : '"' ∉ xs) :
    removeQuotes (('"' :: xs) ++ ['"']) = xs := by
  simp [removeQuotes, List.filter_append, List.filter_cons]
  exact fun c hc he => h (he ▸ hc)

/-- Quote-stripping a quote-free value is the identity. -/
theorem removeQuotes_of_not_mem (xs : Str) (h : '"' ∉ xs) :
    removeQuotes xs = xs :=
  List.filter_eq_self.mpr fun c hc => decide_eq_true fun he => h (he ▸ hc)

/-- The comma is not in a double-quoted comma-free value. -/
theorem comma_not_mem_quoted (xs : Str) (h : ',' ∉ xs) :
    ',' ∉ ('"' :: xs) ++ ['"'] := by
  simp [List.mem_append, List.mem_cons]
  exact h

/-- A free-text field that survives the CSV round trip unchanged: non-empty
and free of the separator, quote and newline characters. -/
abbrev FieldOk (f : Str) : Prop :=
  f ≠ [] ∧ ',' ∉ f ∧ '"' ∉ f ∧ '\n' ∉ f

/-- A transaction whose exported row re-imports faithfully: well-behaved
description/category/date text, a canonical type tag, and a nonzero amount
whose decimal rendering parses back to itself (the "modulo float rounding"
caveat of the round-trip property, as an explicit hypothesis). -/
abbrev Safe (t : Transaction) : Prop :=
  FieldOk t.description ∧ FieldOk t.category ∧ FieldOk t.date ∧
  (t.type = str "income" ∨ t.type = str "expense") ∧
  t.amount ≠ 0 ∧ parseFloat (numToStr t.amount) = some t.amount ∧
  FieldOk (numToStr t.amount) ∧ trim (numToStr t.amount) = numToStr t.amount

/-- What re-importing an exported transaction is expected to produce: the
same free-text fields, the type tag, and the amount with its sign normalized
by the importer. -/
def reimport (t : Transaction) : TxInput :=
  ⟨t.description, if t.type = str "expense" then -|t.amount| else |t.amount|,
   t.category, t.date, t.type⟩

/-- A canonical type tag has well-behaved characters too. -/
theorem fieldOk_type (t : Transaction)
    (h : t.type = str "income" ∨ t.type = str "expense") : FieldOk t.type := by
  rcases h with h | h <;> rw [h] <;> refine ⟨by decide, by decide, by decide, by decide⟩

/-- A canonical type tag is fixed by lower-casing. -/
theorem toLowerStr_type (t : Transaction)
    (h : t.type = str "income" ∨ t.type = str "expense") :
    toLowerStr t.type = t.type := by
  rcases h with h | h <;> rw [h] <;> rfl

/-- The exported row reassociated into its five comma-separated chunks. -/
theorem exportRowBody_chunks (t : Transaction) :
    exportRowBody t
      = (('"' :: t.description) ++ ['"']) ++ ',' ::
          (numToStr t.amount ++ ',' ::
            ((('"' :: t.category) ++ ['"']) ++ ',' ::
              ((('"' :: t.date) ++ ['"']) ++ ',' ::
                (('"' :: t.type) ++ ['"'])))) := by
  simp [exportRowBody, exportRowMid, List.append_assoc]

/-- No newline occurs inside an exported row body when the fields are
well-behaved. -/
theorem no_newline_body (t : Transaction) (h : Safe t) :
    '\n' ∉ exportRowBody t := by
  obtain ⟨hd, hc, hdt, hty, _, _, ha, _⟩ := h
  have hty2 := fieldOk_type t hty
  intro hmem
  rw [exportRowBody, exportRowMid] at hmem
  simp [List.mem_append, hd.2.2.2, hc.2.2.2, hdt.2.2.2, ha.2.2.2, hty2.2.2.2] at hmem

def exportHeader : Str := str "description,amount,category,date,type"

/-- The exported header row resolves to the five canonical lower-case
headers. -/
theorem export_headers_eval :
    (splitOnChar ',' exportHeader).map (fun h => removeQuotes (toLowerStr (trim h)))
      = stdHeaders := by decide

theorem descIdx_std : descIdx stdHeaders = some 0 := by decide

theorem amountIdx_std : amountIdx stdHeaders = some 1 := by decide

theorem categoryIdx_std : categoryIdx stdHeaders = some 2 := by decide

theorem dateIdx_std : dateIdx stdHeaders = some 3 := by decide

theorem typeIdx_std : typeIdx stdHeaders = some 4 := by decide

/-- Splitting an exported row on commas and cleaning each value recovers the
five fields. -/
theorem rowValues_export (t : Transaction) (h : Safe t) :
    rowValues (exportRowBody t)
      = [t.description, numToStr t.amount, t.category, t.date, t.type] := by
  obtain ⟨hd, hc, hdt, hty, _, _, ha, hatrim⟩ := h
  have hty2 := fieldOk_type t hty
  rw [rowValues, exportRowBody_chunks]
  rw [splitOnChar_append _ _ _ (comma_not_mem_quoted _ hd.2.1),
    splitOnChar_append _ _ _ ha.2.1,
    splitOnChar_append _ _ _ (comma_not_mem_quoted _ hc.2.1),
    splitOnChar_append _ _ _ (comma_not_mem_quoted _ hdt.2.1),
    splitOnChar_not_mem _ _ (comma_not_mem_quoted _ hty2.2.1)]
  simp only [List.map_cons, List.map_nil]
  rw [trim_quoted, removeQuotes_quoted _ hd.2.2.1,
    hatrim, removeQuotes_of_not_mem _ ha.2.2.1,
    trim_quoted, removeQuotes_quoted _ hc.2.2.1,
    trim_quoted, removeQuotes_quoted _ hdt.2.2.1,
    trim_quoted, removeQuotes_quoted _ hty2.2.2.1]

/-- Re-importing one exported row of a safe transaction yields exactly the
sign-normalized copy of its fields. -/
theorem rowTransaction_export (today : Str) (t : Transaction) (h : Safe t) :
    rowTransaction today stdHeaders (exportRowBody t) = some (reimport t) := by
  have hv := rowValues_export t h
  obtain ⟨hd, hc, hdt, hty, ha0, hap, ha, _⟩ := h
  have hamt : resolvedAmountStr stdHeaders (exportRowBody t) = numToStr t.amount := by
    rw [resolvedAmountStr, hv, amountIdx_std, fieldAt]
    simp [orDefault, ha.1]
  have htype : resolvedType stdHeaders (exportRowBody t) = t.type := by
    rw [resolvedType, hv, typeIdx_std, fieldAt]
    simp only [Option.getD_some, List.getD_cons_succ, List.getD_cons_zero]
    rw [orDefault, if_neg (fieldOk_type t hty).1]
    exact toLowerStr_type t hty
  have hdesc : fieldAt (rowValues (exportRowBody t)) (descIdx stdHeaders) 0
      (str "Imported Transaction") = t.description := by
    rw [hv, descIdx_std, fieldAt]
    simp [orDefault, hd.1]
  have hcat : fieldAt (rowValues (exportRowBody t)) (categoryIdx stdHeaders) 2
      (str "General") = t.category := by
    rw [hv, categoryIdx_std, fieldAt]
    simp [orDefault, hc.1]
  have hdate : fieldAt (rowValues (exportRowBody t)) (dateIdx stdHeaders) 3 today
      = t.date := by
    rw [hv, dateIdx_std, fieldAt]
    simp [orDefault, hdt.1]
  rw [rowTransaction, hamt, hap]
  dsimp only
  rw [if_neg ha0, hdesc, hcat, hdate, htype, reimport]

/-- The export fold is the header followed by the concatenated rows. -/
theorem exportTransactionsCSV_eq (ts : List Transaction) :
    exportTransactionsCSV ts = (exportHeader ++ ['\n']) ++ (ts.map exportRow).flatten := by
  have haux : ∀ (l : List Transaction) (init : Str),
      l.foldl (fun acc t => acc ++ exportRow t) init = init ++ (l.map exportRow).flatten := by
    intro l
    induction l with
    | nil => intro init; simp
    | cons t l ih => intro init; simp [ih, List.append_assoc]
  rw [exportTransactionsCSV, haux]
  congr 1

/-- Splitting the concatenated rows on newlines yields one entry per row plus
a trailing empty line. -/
theorem splitLines_rows (ts : List Transaction) (h : ∀ t ∈ ts, Safe t) :
    splitOnChar '\n' ((ts.map exportRow).flatten) = ts.map exportRowBody ++ [[]] := by
  induction ts with
  | nil => rfl
  | cons t ts ih =>
    have hb := no_newline_body t (h t (List.mem_cons_self t ts))
    simp only [List.map_cons, List.flatten_cons]
    rw [exportRow,
      show (exportRowBody t ++ str "\n") ++ (List.map exportRow ts).flatten
          = exportRowBody t ++ '\n' :: (List.map exportRow ts).flatten by
        rw [List.append_assoc]
        rfl,
      splitOnChar_append _ _ _ hb, ih fun x hx => h x (List.mem_cons_of_mem t hx)]
    rfl

/-- The exported text splits into the header line, the row bodies, and a
trailing empty line. -/
theorem split_export (ts : List Transaction) (h : ∀ t ∈ ts, Safe t) :
    splitOnChar '\n' (exportTransactionsCSV ts)
      = exportHeader :: (ts.map exportRowBody ++ [[]]) := by
  rw [exportTransactionsCSV_eq, List.append_assoc,
    show (['\n'] : Str) ++ (ts.map exportRow).flatten
        = '\n' :: (ts.map exportRow).flatten from rfl,
    splitOnChar_append _ _ _ (by decide), splitLines_rows ts h]

/-- The import loop creates exactly one sign-normalized transaction per
exported row. -/
theorem goodRows_export (today : Str) (ts : List Transaction)
    (h : ∀ t ∈ ts, Safe t) :
    goodRows today stdHeaders (ts.map exportRowBody ++ [[]]) = ts.map reimport := by
  induction ts with
  | nil => rfl
  | cons t ts ih =>
    have hs := h t (List.mem_cons_self t ts)
    have htr : trim (exportRowBody t) = exportRowBody t := trim_quoted (exportRowMid t)
    have hne : exportRowBody t ≠ [] := by
      rw [exportRowBody]
      simp
    simp only [List.map_cons, List.cons_append]
    rw [goodRows, List.filterMap_cons, htr, if_neg hne, rowTransaction_export today t hs]
    dsimp only
    exact congrArg (reimport t :: ·) (ih fun x hx => h x (List.mem_cons_of_mem t hx))

/-- The created transactions match the originals fieldwise: equal
description, category, date and type, and equal amount magnitude. -/
theorem importedTxs_forall2 (ids : ℕ → Str) (ts : List Transaction) :
    ∀ n, List.Forall₂ (fun (u t1 : Transaction) =>
        u.description = t1.description ∧ |u.amount| = |t1.amount| ∧
        u.category = t1.category ∧ u.date = t1.date ∧ u.type = t1.type)
      (importedTxs ids n (ts.map reimport)) ts := by
  induction ts with
  | nil => intro n; exact List.Forall₂.nil
  | cons t ts ih =>
    intro n
    refine List.Forall₂.cons ⟨rfl, ?_, rfl, rfl, rfl⟩ (ih (n + 1))
    show |(reimport t).amount| = |t.amount|
    rw [reimport]
    dsimp only
    split
    · rw [abs_neg, abs_abs]
    · rw [abs_abs]

/-- C9 (amended): exporting a set of stored transactions to the CSV
transaction format and re-importing the text yields the same count of
transactions, each with equal description, amount magnitude, category, date
and type — PROVIDED every transaction is round-trip safe: nonzero amount
whose decimal rendering parses back to itself (the claim's "modulo float
rounding"), and free-text fields that are non-empty and free of commas,
quotes and newlines (a comma or quote inside a field breaks the naive
splitting, an empty field falls back to a placeholder, and a zero amount is
dropped by the row rule). -/
theorem export_import_roundtrip (ts : List Transaction) (today : Str)
    (ids : ℕ → Str) (user : Option Str) (s : State) (h : ∀ t ∈ ts, Safe t) :
    (importTransactionsFromCSV today ids user (exportTransactionsCSV ts) s).2.success
      = true ∧
    (importTransactionsFromCSV today ids user
        (exportTransactionsCSV ts) s).1.transactions.length
      = s.transactions.length + ts.length ∧
    List.Forall₂ (fun (u t1 : Transaction) =>
        u.description = t1.description ∧ |u.amount| = |t1.amount| ∧
        u.category = t1.category ∧ u.date = t1.date ∧ u.type = t1.type)
      ((importTransactionsFromCSV today ids user
          (exportTransactionsCSV ts) s).1.transactions.drop s.transactions.length)
      ts := by
  have hsplit : splitOnChar '\n' (exportTransactionsCSV ts)
      = exportHeader :: (ts.map exportRowBody ++ [[]]) := split_export ts h
  have hlen2 : 2 ≤ (splitOnChar '\n' (exportTransactionsCSV ts)).length := by
    rw [hsplit]
    simp
  have hhdr : csvHeaders (splitOnChar '\n' (exportTransactionsCSV ts)) = stdHeaders := by
    rw [hsplit, csvHeaders]
    simp only [List.getD_cons_zero]
    exact export_headers_eval
  have hgood : goodRows today
      (csvHeaders (splitOnChar '\n' (exportTransactionsCSV ts)))
      ((splitOnChar '\n' (exportTransactionsCSV ts)).drop 1) = ts.map reimport := by
    rw [hhdr, hsplit, List.drop_succ_cons, List.drop_zero]
    exact goodRows_export today ts h
  rw [importTransactionsFromCSV, if_neg (by omega), processLines_characterization]
  dsimp only
  rw [hgood]
  refine ⟨rfl, ?_, ?_⟩
  · rw [List.length_append, importedTxs_length, List.length_map]
  · rw [List.drop_left]
    exact importedTxs_forall2 ids ts 0

def roundtripTs : List Transaction :=
  [⟨str "1", str "Morning Coffee", -5, str "Food", str "2024-01-05", str "expense"⟩,
   ⟨str "2", str "Salary", 1000, str "Work", str "2024-01-01", str "income"⟩]

/-- Witness for C9 (amended) at a concrete two-transaction set (one expense
with a space in its description, one income). -/
theorem export_import_roundtrip_witness :
    (importTransactionsFromCSV today0 ids0 none
        (exportTransactionsCSV roundtripTs) State.empty).2.success = true ∧
    (importTransactionsFromCSV today0 ids0 none
        (exportTransactionsCSV roundtripTs) State.empty).1.transactions.length
      = State.empty.transactions.length + roundtripTs.length ∧
    List.Forall₂ (fun (u t1 : Transaction) =>
        u.description = t1.description ∧ |u.amount| = |t1.amount| ∧
        u.category = t1.category ∧ u.date = t1.date ∧ u.type = t1.type)
      ((importTransactionsFromCSV today0 ids0 none
          (exportTransactionsCSV roundtripTs)
          State.empty).1.transactions.drop State.empty.transactions.length)
      roundtripTs :=
  export_import_roundtrip roundtripTs today0 ids0 none State.empty (by decide)

/-- C9 (counterexample): a stored transaction with amount 0 is dropped on
re-import — its exported row fails the importer's nonzero-amount rule — so
the round trip does not preserve the count for every transaction set. -/
theorem export_import_drops_zero_amount :
    (importTransactionsFromCSV today0 ids0 none
        (exportTransactionsCSV
          [⟨str "1", str "Zero", 0, str "Misc", str "2024-01-02", str "income"⟩])
        State.empty).1.transactions.length = 0 ∧
    ([(⟨str "1", str "Zero", 0, str "Misc", str "2024-01-02", str "income"⟩ : Transaction)]).length
      = 1 := by
  constructor <;> decide
